import Mathlib

/-!
Verification of the powerpipe check-command core against its source.

The definitions below are shallow embeddings of:
  - `internal/cmd/check.go` (`getExitCode`, `validateCheckArgs`, the control
    flow of `runCheckCmd`),
  - `internal/dashboardtypes` `NewLeafData`,
  - `internal/db_client` `ExecuteQuery`,
  - `ui/dashboard/src/components/dashboards/check/common/index.ts`
    (`CheckDisplayGroupType`, `findDimension`).
Go machine integers holding result counts are embedded as `Int`; Go strings
as `String` with `len` embedded as UTF-8 byte size; Go `map` values are
embedded by their lookup function; fallible Go code (including panics from
out-of-range indexing) returns `Option`.
-/

namespace Powerpipe

/-- Exit code for a run with no runtime errors and no control alarms or
errors. The `check.go` comment pins it: exitCode=0 no runtime errors, no
control alarms or errors. -/
def ExitCodeSuccessful : Nat := 0

/-- Exit code for a run with one or more control alarms and no control
errors. The `check.go` comment pins it: exitCode=1. -/
def ExitCodeControlsAlarm : Nat := 1

/-- Exit code for a run with one or more control errors. The `check.go`
comment pins it: exitCode=2. -/
def ExitCodeControlsError : Nat := 2

/-- Modelled from the spec: `constants.ExitCodeInsufficientOrWrongInputs`
is defined in the external pipe-fittings module, not in the sources here;
the spec and the `check.go` comment pin runtime/setup failure codes to 3 or
greater, so a representative value of 3 or greater is chosen. -/
def ExitCodeInsufficientOrWrongInputs : Nat := 254

/-- Modelled from the spec: `constants.ExitCodeInitializationFailed` is
defined in the external pipe-fittings module; the spec pins runtime/setup
failure codes to 3 or greater. -/
def ExitCodeInitializationFailed : Nat := 250

/-- Modelled from the spec: `constants.ExitCodeUnknownErrorPanic` is
defined in the external pipe-fittings module; the spec pins runtime/setup
failure codes to 3 or greater. -/
def ExitCodeUnknownErrorPanic : Nat := 255

/-- Embedding of `getExitCode` from `check.go`: one or more control errors
give `ExitCodeControlsError`; else one or more alarms give
`ExitCodeControlsAlarm`; else `ExitCodeSuccessful`. -/
def getExitCode (alarms : Int) (errors : Int) : Nat :=
  if 0 < errors then ExitCodeControlsError
  else if 0 < alarms then ExitCodeControlsAlarm
  else ExitCodeSuccessful

/-- The viper-provided argument state read by `validateCheckArgs`, plus the
result of the external `localcmdconfig.ValidateSnapshotArgs` call (that
function lives outside these sources, so its outcome is a field). -/
structure CheckArgs where
  snapshotArgsError : Option String
  searchPathSet : Bool
  searchPathPrefixSet : Bool
  separator : String
  shareSet : Bool
  snapshotSet : Bool
  whereSet : Bool
  tagSet : Bool

/-- Embedding of the search-path conflict check in `validateCheckArgs`. -/
def searchPathConflictCheck (a : CheckArgs) : Option String :=
  if a.searchPathSet && a.searchPathPrefixSet then
    some "only one of --search-path or --search-path-prefix may be set"
  else none

/-- Embedding of the separator check in `validateCheckArgs`. Go `len` on a
string is its UTF-8 byte count, embedded as `String.utf8ByteSize`. -/
def separatorCheck (a : CheckArgs) : Option String :=
  if 1 < a.separator.utf8ByteSize then
    some "--separator can be 1 character long at most"
  else none

/-- Embedding of the share/snapshot exclusivity check in
`validateCheckArgs`. -/
def shareSnapshotCheck (a : CheckArgs) : Option String :=
  if a.shareSet && a.snapshotSet then
    some "only 1 of --share and --snapshot may be set"
  else none

/-- Embedding of the where/tag exclusivity check in `validateCheckArgs`. -/
def whereTagCheck (a : CheckArgs) : Option String :=
  if a.whereSet && a.tagSet then
    some "only 1 of --where and --tag may be set"
  else none

/-- Embedding of `validateCheckArgs` from `check.go`: the checks run in
source order and the first failing check's error is returned. -/
def validateCheckArgs (a : CheckArgs) : Option String :=
  match a.snapshotArgsError with
  | some e => some e
  | none =>
    match searchPathConflictCheck a with
    | some e => some e
    | none =>
      match separatorCheck a with
      | some e => some e
      | none =>
        match shareSnapshotCheck a with
        | some e => some e
        | none => whereTagCheck a

/-- Environment of one `runCheckCmd` invocation: the argument state and the
outcomes of the external calls it makes, in source order. `treeError`
captures the error from `getExecutionTree` (which `runCheckCmd` feeds to
`error_helpers.FailOnError`, a panic recovered by the deferred handler);
`rootAlarms`/`rootErrors` are `tree.Root.Summary.Status.Alarm`/`.Error`
after execution; `executeError`, `publishError` and `exportError` are the
results of `executeTree`, `publishSnapshot` and `exportExecutionTree`. -/
structure RunEnv where
  args : CheckArgs
  diagnosticMode : Bool
  initError : Option String
  treeError : Option String
  executeError : Option String
  rootAlarms : Int
  rootErrors : Int
  publishError : Option String
  exportError : Option String

/-- Observable outcome of one `runCheckCmd` invocation: the process exit
code, whether an execution tree was built, whether execution was started,
and the final values of the `totalAlarms`/`totalErrors` locals that the
deferred `getExitCode` call reads. -/
structure RunOutcome where
  exitCode : Nat
  treeBuilt : Bool
  executed : Bool
  totalAlarms : Int
  totalErrors : Int

/-- Embedding of the control flow of `runCheckCmd` from `check.go`:
validation, diagnostic dump, initialization, tree construction, execution,
snapshot publication and export, in source order, with the deferred
`exitCode = getExitCode(totalAlarms, totalErrors)` applied on every path
past tree construction and the recover handler mapping the
`FailOnError` panic to `ExitCodeUnknownErrorPanic`. In the diagnostic
branch the package-level `exitCode` keeps its zero default. -/
def runCheckCmd (env : RunEnv) : RunOutcome :=
  if (validateCheckArgs env.args).isSome then
    { exitCode := ExitCodeInsufficientOrWrongInputs, treeBuilt := false,
      executed := false, totalAlarms := 0, totalErrors := 0 }
  else if env.diagnosticMode then
    { exitCode := ExitCodeSuccessful, treeBuilt := false,
      executed := false, totalAlarms := 0, totalErrors := 0 }
  else if env.initError.isSome then
    { exitCode := ExitCodeInitializationFailed, treeBuilt := false,
      executed := false, totalAlarms := 0, totalErrors := 0 }
  else if env.treeError.isSome then
    { exitCode := ExitCodeUnknownErrorPanic, treeBuilt := false,
      executed := false, totalAlarms := 0, totalErrors := 0 }
  else if env.executeError.isSome then
    { exitCode := getExitCode 0 1, treeBuilt := true,
      executed := true, totalAlarms := 0, totalErrors := 1 }
  else if env.publishError.isSome then
    { exitCode := getExitCode env.rootAlarms (env.rootErrors + 1),
      treeBuilt := true, executed := true,
      totalAlarms := env.rootAlarms, totalErrors := env.rootErrors + 1 }
  else if env.exportError.isSome then
    { exitCode := getExitCode env.rootAlarms (env.rootErrors + 1),
      treeBuilt := true, executed := true,
      totalAlarms := env.rootAlarms, totalErrors := env.rootErrors + 1 }
  else
    { exitCode := getExitCode env.rootAlarms env.rootErrors,
      treeBuilt := true, executed := true,
      totalAlarms := env.rootAlarms, totalErrors := env.rootErrors }

/-- Embedding of the pipe-fittings `queryresult.ColumnDef` values that
`NewLeafData` consumes; only the `Name` field is read by the sources here,
`DataType` stands for the remaining metadata. -/
structure ColumnDef where
  Name : String
  DataType : String
deriving DecidableEq

/-- Embedding of `queryresult.RowResult`: the data cells of one row, in
source order. Cell values (Go `interface\x7b\x7d`) are a type parameter. -/
structure RowResult (α : Type) where
  Data : List α
deriving DecidableEq

/-- Embedding of `queryresult.SyncQueryResult` as consumed by
`NewLeafData`: column metadata and the streamed rows, in order. -/
structure SyncQueryResult (α : Type) where
  Cols : List ColumnDef
  Rows : List (RowResult α)
deriving DecidableEq

/-- A produced row of `LeafData`: a Go `map[string]interface\x7b\x7d`,
embedded by its lookup function. -/
def RowMap (α : Type) : Type := String → Option α

/-- The empty Go map. -/
def emptyRow (α : Type) : RowMap α := fun _ => none

/-- Go map assignment `m[k] = v`, observed through lookups. -/
def mapAssign {α : Type} (m : RowMap α) (k : String) (v : α) : RowMap α :=
  fun q => if q = k then some v else m q

/-- Embedding of `dashboardtypes.LeafData`: column metadata plus the
produced rows. -/
structure LeafData (α : Type) where
  Columns : List ColumnDef
  Rows : List (RowMap α)

/-- The inner loop of `NewLeafData` over one row: for each cell index `i`,
look up `Columns[i].Name` and assign the cell into the row map. Indexing
past the end of `Columns` is a Go panic, embedded as `none`. -/
def buildRowAux {α : Type} (cols : List ColumnDef) (m : RowMap α) (i : Nat) :
    List α → Option (RowMap α)
  | [] => some m
  | d :: rest =>
    match cols[i]? with
    | none => none
    | some c => buildRowAux cols (mapAssign m c.Name d) (i + 1) rest

/-- The outer loop of `NewLeafData`: build every row map in row order; a
panic on any row aborts the whole call. -/
def buildRows {α : Type} (cols : List ColumnDef) :
    List (RowResult α) → Option (List (RowMap α))
  | [] => some []
  | row :: rest =>
    match buildRowAux cols (emptyRow α) 0 row.Data, buildRows cols rest with
    | some r, some rs => some (r :: rs)
    | _, _ => none

/-- Embedding of `NewLeafData` from `dashboardtypes`: columns are taken
from `result.Cols` unchanged and each source row is converted to a map from
column name to cell value. -/
def NewLeafData {α : Type} (result : SyncQueryResult α) : Option (LeafData α) :=
  (buildRows result.Cols result.Rows).map
    (fun rows => { Columns := result.Cols, Rows := rows })

/-- Embedding of the `db_client.DbClient` capability used by
`ExecuteQuery`: the `Execute` call either yields a query result or an
error. -/
structure DbClient (α ρ : Type) where
  Execute : String → List α → Except String ρ

/-- Embedding of `queryresult.ResultStreamer` as observed by
`ExecuteQuery`: the results streamed so far and whether it was closed. -/
structure ResultStreamer (ρ : Type) where
  results : List ρ
  closed : Bool
deriving DecidableEq

/-- Embedding of `queryresult.NewResultStreamer`. -/
def NewResultStreamer (ρ : Type) : ResultStreamer ρ :=
  { results := [], closed := false }

/-- Embedding of `ResultStreamer.StreamResult`. -/
def StreamResult {ρ : Type} (s : ResultStreamer ρ) (r : ρ) : ResultStreamer ρ :=
  { s with results := s.results ++ [r] }

/-- Embedding of `ResultStreamer.Close`. -/
def ResultStreamer.Close {ρ : Type} (s : ResultStreamer ρ) : ResultStreamer ρ :=
  { s with closed := true }

/-- Observable outcome of one `ExecuteQuery` call: the returned streamer
(`none` embeds Go `nil`), the returned error, and what the streaming
goroutine streams. -/
structure ExecuteQueryOutcome (ρ : Type) where
  streamer : Option (ResultStreamer ρ)
  error : Option String
  streamedResults : List ρ

/-- Embedding of `db_client.ExecuteQuery`: create a streamer, call
`client.Execute`; on error return `nil` streamer with that error and stream
nothing; on success hand the result to the goroutine which streams it and
closes the streamer. -/
def ExecuteQuery {α ρ : Type} (client : DbClient α ρ) (queryString : String)
    (args : List α) : ExecuteQueryOutcome ρ :=
  let resultsStreamer := NewResultStreamer ρ
  match client.Execute queryString args with
  | .error e => { streamer := none, error := some e, streamedResults := [] }
  | .ok result =>
    { streamer := some ((StreamResult resultsStreamer result).Close),
      error := none, streamedResults := [result] }

/-- Literal members of the TypeScript union `CheckDisplayGroupType` in
`ui/dashboard/src/components/dashboards/check/common/index.ts`. -/
def checkDisplayGroupTypeLiterals : List String :=
  ["benchmark", "control", "control_tag", "result", "dimension",
   "reason", "resource", "severity", "status"]

/-- Embedding of the TypeScript type `CheckDisplayGroupType`: the union of
the nine string literals with the type `string`, so membership holds for
every string. -/
def isCheckDisplayGroupType (s : String) : Bool :=
  checkDisplayGroupTypeLiterals.contains s || true

/-- Stated from the spec for comparison: the seven grouping kinds the spec
lists for the Regrouping Engine (benchmark-ancestor path, control, tag key,
dimension key, severity, status, result). -/
def claimedGroupingTypes : List String :=
  ["benchmark", "control", "control_tag", "dimension",
   "severity", "status", "result"]

/-- Embedding of the TypeScript type `CheckResultDimension`. -/
structure CheckResultDimension where
  key : String
  value : String
deriving DecidableEq

/-- Embedding of `findDimension` from `index.ts`: `undefined` when the
dimensions list is absent or the key is absent or falsy (the empty string);
otherwise the first dimension whose key equals the given key. -/
def findDimension (dimensions : Option (List CheckResultDimension))
    (key : Option String) : Option CheckResultDimension :=
  match dimensions, key with
  | none, _ => none
  | _, none => none
  | some ds, some k =>
    if k = "" then none
    else ds.find? (fun d => d.key == k)

/-- Argument state with every flag at its benign default (separator is the
default comma). -/
def benignArgs : CheckArgs :=
  { snapshotArgsError := none, searchPathSet := false,
    searchPathPrefixSet := false, separator := ",", shareSet := false,
    snapshotSet := false, whereSet := false, tagSet := false }

/-- Run environment around a given argument state in which every external
call succeeds and the root summary is empty. -/
def benignEnv (a : CheckArgs) : RunEnv :=
  { args := a, diagnosticMode := false, initError := none, treeError := none,
    executeError := none, rootAlarms := 0, rootErrors := 0,
    publishError := none, exportError := none }

/-- Argument state whose separator is the single character e-acute, which
Go encodes in two UTF-8 bytes. -/
def accentSeparatorArgs : CheckArgs :=
  { benignArgs with separator := "é" }

/-- A sync query result with two identically named columns and one row with
two distinct cells. -/
def dupColResult : SyncQueryResult Nat :=
  { Cols := [{ Name := "a", DataType := "text" },
             { Name := "a", DataType := "text" }],
    Rows := [{ Data := [1, 2] }] }

/-- A sync query result with two distinct columns and two rows. -/
def twoColResult : SyncQueryResult Nat :=
  { Cols := [{ Name := "id", DataType := "int" },
             { Name := "status", DataType := "text" }],
    Rows := [{ Data := [1, 10] }, { Data := [2, 20] }] }

/-- A client whose Execute call always fails. -/
def failingClient : DbClient Nat Nat :=
  { Execute := fun _ _ => .error "relation does not exist" }

/-- A client whose Execute call always succeeds with the result 7. -/
def okClient : DbClient Nat Nat :=
  { Execute := fun _ _ => .ok 7 }

/-- A concrete dimensions list for the findDimension witness. -/
def witnessDims : List CheckResultDimension :=
  [{ key := "env", value := "prod" }, { key := "region", value := "us" }]

/-- validateCheckArgs succeeds exactly when every individual check
succeeds. -/
theorem validateCheckArgs_eq_none_iff (a : CheckArgs) :
    validateCheckArgs a = none ↔
      a.snapshotArgsError = none ∧ searchPathConflictCheck a = none
      ∧ separatorCheck a = none ∧ shareSnapshotCheck a = none
      ∧ whereTagCheck a = none := by
  unfold validateCheckArgs
  cases hs : a.snapshotArgsError with
  | some e => simp [hs]
  | none =>
    cases h1 : searchPathConflictCheck a with
    | some e => simp [hs, h1]
    | none =>
      cases h2 : separatorCheck a with
      | some e => simp [hs, h1, h2]
      | none =>
        cases h3 : shareSnapshotCheck a with
        | some e => simp [hs, h1, h2, h3]
        | none => simp [hs, h1, h2, h3]

/-- validateCheckArgs fails whenever some individual check fails. -/
theorem validateCheckArgs_isSome_of_check (a : CheckArgs)
    (h : a.snapshotArgsError.isSome ∨ (searchPathConflictCheck a).isSome
      ∨ (separatorCheck a).isSome ∨ (shareSnapshotCheck a).isSome
      ∨ (whereTagCheck a).isSome) :
    (validateCheckArgs a).isSome = true := by
  rcases hv : validateCheckArgs a with _ | e
  · rw [validateCheckArgs_eq_none_iff] at hv
    rcases hv with ⟨h1, h2, h3, h4, h5⟩
    simp [h1, h2, h3, h4, h5] at h
  · rfl

/-- C1: the exit-code resolver is a pure function of the root summary
alarm and error counts: for non-negative counts, positive errors give the
errors-present code 2; otherwise positive alarms give the alarms-present
code 1; otherwise the success code 0. Errors dominate alarms: alarms=3,
errors=2 maps to 2. -/
theorem getExitCode_resolves_counts (alarms errors : Int)
    (ha : 0 ≤ alarms) (he : 0 ≤ errors) :
    (0 < errors → getExitCode alarms errors = 2)
    ∧ (errors ≤ 0 → 0 < alarms → getExitCode alarms errors = 1)
    ∧ (errors ≤ 0 → alarms ≤ 0 → getExitCode alarms errors = 0)
    ∧ getExitCode 3 2 = 2 := by
  unfold getExitCode ExitCodeControlsError ExitCodeControlsAlarm ExitCodeSuccessful
  refine ⟨fun h => ?_, fun h1 h2 => ?_, fun h1 h2 => ?_, by norm_num⟩
  · simp [h]
  · rw [if_neg (by omega), if_pos h2]
  · rw [if_neg (by omega), if_neg (by omega)]

/-- Witness for getExitCode_resolves_counts at alarms=3, errors=2. -/
theorem getExitCode_resolves_counts_witness :
    (0 : Int) ≤ 3 ∧ (0 : Int) ≤ 2 ∧ (0 : Int) < 2 ∧ getExitCode 3 2 = 2 :=
  ⟨by norm_num, by norm_num, by norm_num,
    (getExitCode_resolves_counts 3 2 (by norm_num) (by norm_num)).1 (by norm_num)⟩

/-- C2: when both the where and tag filters are set, validateCheckArgs
fails (and, when every earlier check passes, with exactly the
filter-exclusivity error), the run aborts with the wrong-inputs exit code,
no execution tree is built and no control is executed. -/
theorem whereTag_conflict_aborts_run (env : RunEnv)
    (hw : env.args.whereSet = true) (ht : env.args.tagSet = true) :
    (validateCheckArgs env.args).isSome = true
    ∧ (env.args.snapshotArgsError = none →
        searchPathConflictCheck env.args = none →
        separatorCheck env.args = none →
        shareSnapshotCheck env.args = none →
        validateCheckArgs env.args = some "only 1 of --where and --tag may be set")
    ∧ (runCheckCmd env).treeBuilt = false
    ∧ (runCheckCmd env).executed = false
    ∧ (runCheckCmd env).exitCode = ExitCodeInsufficientOrWrongInputs := by
  have hwt : whereTagCheck env.args =
      some "only 1 of --where and --tag may be set" := by
    simp [whereTagCheck, hw, ht]
  have hv : (validateCheckArgs env.args).isSome = true :=
    validateCheckArgs_isSome_of_check env.args (by simp [hwt])
  refine ⟨hv, fun h1 h2 h3 h4 => ?_, ?_, ?_, ?_⟩
  · unfold validateCheckArgs
    rw [h1, h2, h3, h4, hwt]
  · simp [runCheckCmd, hv]
  · simp [runCheckCmd, hv]
  · simp [runCheckCmd, hv]

/-- Witness for whereTag_conflict_aborts_run: both filters set, every
other argument benign. -/
theorem whereTag_conflict_aborts_run_witness :
    (benignEnv { benignArgs with whereSet := true, tagSet := true }).args.whereSet = true
    ∧ (benignEnv { benignArgs with whereSet := true, tagSet := true }).args.tagSet = true
    ∧ (runCheckCmd (benignEnv { benignArgs with whereSet := true, tagSet := true })).treeBuilt = false
    ∧ (runCheckCmd (benignEnv { benignArgs with whereSet := true, tagSet := true })).exitCode
        = ExitCodeInsufficientOrWrongInputs := by
  have h := whereTag_conflict_aborts_run
    (benignEnv { benignArgs with whereSet := true, tagSet := true }) rfl rfl
  exact ⟨rfl, rfl, h.2.2.1, h.2.2.2.2⟩

/-- C9: the share and snapshot flags are mutually exclusive: with both set
validateCheckArgs fails and the run aborts before any execution with the
wrong-inputs exit code; with at most one set the share/snapshot check
passes. -/
theorem share_snapshot_mutually_exclusive (env : RunEnv) :
    (env.args.shareSet = true → env.args.snapshotSet = true →
      (validateCheckArgs env.args).isSome = true
      ∧ (runCheckCmd env).treeBuilt = false
      ∧ (runCheckCmd env).executed = false
      ∧ (runCheckCmd env).exitCode = ExitCodeInsufficientOrWrongInputs)
    ∧ (¬(env.args.shareSet = true ∧ env.args.snapshotSet = true) →
        shareSnapshotCheck env.args = none) := by
  constructor
  · intro hs ht
    have hc : shareSnapshotCheck env.args =
        some "only 1 of --share and --snapshot may be set" := by
      simp [shareSnapshotCheck, hs, ht]
    have hv : (validateCheckArgs env.args).isSome = true :=
      validateCheckArgs_isSome_of_check env.args (by simp [hc])
    exact ⟨hv, by simp [runCheckCmd, hv], by simp [runCheckCmd, hv],
      by simp [runCheckCmd, hv]⟩
  · intro h
    unfold shareSnapshotCheck
    rw [if_neg]
    simp only [Bool.and_eq_true]
    exact h

/-- Witness for share_snapshot_mutually_exclusive: both flags set, every
other argument benign. -/
theorem share_snapshot_mutually_exclusive_witness :
    (benignEnv { benignArgs with shareSet := true, snapshotSet := true }).args.shareSet = true
    ∧ (runCheckCmd (benignEnv { benignArgs with shareSet := true, snapshotSet := true })).treeBuilt = false
    ∧ (runCheckCmd (benignEnv { benignArgs with shareSet := true, snapshotSet := true })).exitCode
        = ExitCodeInsufficientOrWrongInputs := by
  have h := (share_snapshot_mutually_exclusive
    (benignEnv { benignArgs with shareSet := true, snapshotSet := true })).1 rfl rfl
  exact ⟨rfl, h.2.1, h.2.2.2⟩

/-- Counterexample for C8 as stated: the separator e-acute is a single
character, yet the separator check rejects it (Go measures the byte
length), so a single-character separator does not always pass. -/
theorem separator_single_char_rejected :
    accentSeparatorArgs.separator.length = 1
    ∧ separatorCheck accentSeparatorArgs ≠ none
    ∧ validateCheckArgs accentSeparatorArgs ≠ none := by
  refine ⟨by decide, by decide, by decide⟩

/-- C8 amended: the separator check rejects exactly the separators whose
UTF-8 byte length exceeds one; a rejected separator makes validateCheckArgs
fail and the run abort before initialization with the wrong-inputs exit
code, and any separator of at most one byte passes the separator check. -/
theorem separator_byte_length_check (env : RunEnv)
    (h : 1 < env.args.separator.utf8ByteSize) :
    (validateCheckArgs env.args).isSome = true
    ∧ (runCheckCmd env).treeBuilt = false
    ∧ (runCheckCmd env).executed = false
    ∧ (runCheckCmd env).exitCode = ExitCodeInsufficientOrWrongInputs
    ∧ (∀ a : CheckArgs, a.separator.utf8ByteSize ≤ 1 → separatorCheck a = none) := by
  have hc : (separatorCheck env.args).isSome = true := by
    simp [separatorCheck, h]
  have hv : (validateCheckArgs env.args).isSome = true :=
    validateCheckArgs_isSome_of_check env.args (by simp [hc])
  refine ⟨hv, by simp [runCheckCmd, hv], by simp [runCheckCmd, hv],
    by simp [runCheckCmd, hv], ?_⟩
  intro a ha
  unfold separatorCheck
  rw [if_neg (by omega)]

/-- Witness for separator_byte_length_check: a two-byte separator. -/
theorem separator_byte_length_check_witness :
    1 < (benignEnv { benignArgs with separator := ",," }).args.separator.utf8ByteSize
    ∧ (runCheckCmd (benignEnv { benignArgs with separator := ",," })).treeBuilt = false
    ∧ separatorCheck benignArgs = none := by
  have h := separator_byte_length_check
    (benignEnv { benignArgs with separator := ",," }) (by decide)
  exact ⟨by decide, h.2.1, h.2.2.2.2 benignArgs (by decide)⟩

/-- getExitCode only produces the three documented codes, each
characterized by the counts. -/
theorem exit_outcome_facts (a e : Int) :
    (getExitCode a e = ExitCodeSuccessful ∨ getExitCode a e = ExitCodeControlsAlarm
      ∨ getExitCode a e = ExitCodeControlsError ∨ 3 ≤ getExitCode a e)
    ∧ (getExitCode a e = ExitCodeSuccessful → a ≤ 0 ∧ e ≤ 0)
    ∧ (getExitCode a e = ExitCodeControlsAlarm → 0 < a ∧ e ≤ 0)
    ∧ (getExitCode a e = ExitCodeControlsError → 0 < e) := by
  unfold getExitCode ExitCodeSuccessful ExitCodeControlsAlarm ExitCodeControlsError
  split_ifs with h1 h2 <;>
    refine ⟨?_, fun h => ?_, fun h => ?_, fun h => ?_⟩ <;> simp_all

/-- getExitCode returns the errors-present code whenever errors are
positive. -/
theorem getExitCode_of_pos_errors (a e : Int) (h : 0 < e) :
    getExitCode a e = ExitCodeControlsError := by
  simp [getExitCode, h]

/-- C3: for every run that reaches execution (validation, diagnostic
check, initialization and tree construction all pass), the exit code is
computed by getExitCode from the final aggregated root counts when all
later steps succeed; a run whose execution returns an error (such as
cancellation) exits with the errors-present code, and whenever the root
summary accumulated any errors the exit code is never the success code. -/
theorem runCheck_exit_reflects_summary (env : RunEnv)
    (hv : validateCheckArgs env.args = none) (hd : env.diagnosticMode = false)
    (hi : env.initError = none) (ht : env.treeError = none) :
    (env.executeError = none → env.publishError = none → env.exportError = none →
      (runCheckCmd env).exitCode = getExitCode env.rootAlarms env.rootErrors)
    ∧ (env.executeError.isSome = true →
        (runCheckCmd env).exitCode = ExitCodeControlsError)
    ∧ (0 < env.rootErrors → (runCheckCmd env).exitCode ≠ ExitCodeSuccessful)
    ∧ (env.executeError.isSome = true →
        (runCheckCmd env).exitCode ≠ ExitCodeSuccessful) := by
  have hvs : (validateCheckArgs env.args).isSome = false := by simp [hv]
  refine ⟨fun he hp hx => ?_, fun he => ?_, fun hr => ?_, fun he => ?_⟩
  · simp [runCheckCmd, hvs, hd, hi, ht, he, hp, hx]
  · simp only [runCheckCmd, hvs, hd, hi, ht, he]
    simp [getExitCode_of_pos_errors 0 1 (by norm_num)]
  · cases he : env.executeError with
    | some e =>
      have : (runCheckCmd env).exitCode = ExitCodeControlsError := by
        simp only [runCheckCmd, hvs, hd, hi, ht, he]
        simp [getExitCode_of_pos_errors 0 1 (by norm_num)]
      rw [this]; decide
    | none =>
      cases hp : env.publishError with
      | some e =>
        have : (runCheckCmd env).exitCode = ExitCodeControlsError := by
          simp only [runCheckCmd, hvs, hd, hi, ht, he, hp]
          simp [getExitCode_of_pos_errors env.rootAlarms (env.rootErrors + 1) (by omega)]
        rw [this]; decide
      | none =>
        cases hx : env.exportError with
        | some e =>
          have : (runCheckCmd env).exitCode = ExitCodeControlsError := by
            simp only [runCheckCmd, hvs, hd, hi, ht, he, hp, hx]
            simp [getExitCode_of_pos_errors env.rootAlarms (env.rootErrors + 1) (by omega)]
          rw [this]; decide
        | none =>
          have : (runCheckCmd env).exitCode = ExitCodeControlsError := by
            simp only [runCheckCmd, hvs, hd, hi, ht, he, hp, hx]
            simp [getExitCode_of_pos_errors env.rootAlarms env.rootErrors hr]
          rw [this]; decide
  · have hc : (runCheckCmd env).exitCode = ExitCodeControlsError := by
      simp only [runCheckCmd, hvs, hd, hi, ht, he]
      simp [getExitCode_of_pos_errors 0 1 (by norm_num)]
    rw [hc]; decide

/-- Witness for runCheck_exit_reflects_summary: a canceled execution. -/
theorem runCheck_exit_reflects_summary_witness :
    validateCheckArgs benignArgs = none
    ∧ (runCheckCmd { benignEnv benignArgs with executeError := some "context canceled" }).exitCode
        = ExitCodeControlsError
    ∧ (runCheckCmd { benignEnv benignArgs with executeError := some "context canceled" }).exitCode
        ≠ ExitCodeSuccessful := by
  have h := runCheck_exit_reflects_summary
    { benignEnv benignArgs with executeError := some "context canceled" }
    (by decide) rfl rfl rfl
  exact ⟨by decide, h.2.1 rfl, h.2.2.2 rfl⟩

/-- C7: every exit code of the modelled runCheckCmd is 0, 1, 2 or at least
3, partitioned by cause: 0 only when no alarms and no errors were counted,
1 only when alarms and no errors were counted, 2 only when errors were
counted, and argument-validation failure, initialization failure and the
tree-construction panic all exit with a code of at least 3. -/
theorem runCheck_exit_partition (env : RunEnv) :
    ((runCheckCmd env).exitCode = ExitCodeSuccessful
      ∨ (runCheckCmd env).exitCode = ExitCodeControlsAlarm
      ∨ (runCheckCmd env).exitCode = ExitCodeControlsError
      ∨ 3 ≤ (runCheckCmd env).exitCode)
    ∧ ((runCheckCmd env).exitCode = ExitCodeSuccessful →
        (runCheckCmd env).totalAlarms ≤ 0 ∧ (runCheckCmd env).totalErrors ≤ 0)
    ∧ ((runCheckCmd env).exitCode = ExitCodeControlsAlarm →
        0 < (runCheckCmd env).totalAlarms ∧ (runCheckCmd env).totalErrors ≤ 0)
    ∧ ((runCheckCmd env).exitCode = ExitCodeControlsError →
        0 < (runCheckCmd env).totalErrors)
    ∧ ((validateCheckArgs env.args).isSome = true → 3 ≤ (runCheckCmd env).exitCode)
    ∧ (validateCheckArgs env.args = none → env.diagnosticMode = false →
        env.initError.isSome = true → 3 ≤ (runCheckCmd env).exitCode)
    ∧ (validateCheckArgs env.args = none → env.diagnosticMode = false →
        env.initError = none → env.treeError.isSome = true →
        3 ≤ (runCheckCmd env).exitCode) := by
  unfold runCheckCmd
  split_ifs with h1 h2 h3 h4 h5 h6 h7
  · exact ⟨by decide, by decide, by decide, by decide, fun _ => by decide,
      fun _ _ _ => by decide, fun _ _ _ _ => by decide⟩
  · refine ⟨by decide, by decide, by decide, by decide, fun h => absurd h h1,
      fun _ hd _ => ?_, fun _ hd _ _ => ?_⟩
    · rw [h2] at hd; exact absurd hd (by decide)
    · rw [h2] at hd; exact absurd hd (by decide)
  · exact ⟨by decide, by decide, by decide, by decide, fun _ => by decide,
      fun _ _ _ => by decide, fun _ _ _ _ => by decide⟩
  · exact ⟨by decide, by decide, by decide, by decide, fun _ => by decide,
      fun _ _ _ => by decide, fun _ _ _ _ => by decide⟩
  · exact ⟨by decide, by decide, by decide, by decide, fun h => absurd h h1,
      fun _ _ hi => absurd hi h3, fun _ _ _ htr => absurd htr h4⟩
  · exact ⟨(exit_outcome_facts env.rootAlarms (env.rootErrors + 1)).1,
      fun h => (exit_outcome_facts env.rootAlarms (env.rootErrors + 1)).2.1 h,
      fun h => (exit_outcome_facts env.rootAlarms (env.rootErrors + 1)).2.2.1 h,
      fun h => (exit_outcome_facts env.rootAlarms (env.rootErrors + 1)).2.2.2 h,
      fun h => absurd h h1,
      fun _ _ hi => absurd hi h3, fun _ _ _ htr => absurd htr h4⟩
  · exact ⟨(exit_outcome_facts env.rootAlarms (env.rootErrors + 1)).1,
      fun h => (exit_outcome_facts env.rootAlarms (env.rootErrors + 1)).2.1 h,
      fun h => (exit_outcome_facts env.rootAlarms (env.rootErrors + 1)).2.2.1 h,
      fun h => (exit_outcome_facts env.rootAlarms (env.rootErrors + 1)).2.2.2 h,
      fun h => absurd h h1,
      fun _ _ hi => absurd hi h3, fun _ _ _ htr => absurd htr h4⟩
  · exact ⟨(exit_outcome_facts env.rootAlarms env.rootErrors).1,
      fun h => (exit_outcome_facts env.rootAlarms env.rootErrors).2.1 h,
      fun h => (exit_outcome_facts env.rootAlarms env.rootErrors).2.2.1 h,
      fun h => (exit_outcome_facts env.rootAlarms env.rootErrors).2.2.2 h,
      fun h => absurd h h1,
      fun _ _ hi => absurd hi h3, fun _ _ _ htr => absurd htr h4⟩

/-- Witness for runCheck_exit_partition: an initialization failure exits
with a code of at least 3. -/
theorem runCheck_exit_partition_witness :
    validateCheckArgs benignArgs = none
    ∧ 3 ≤ (runCheckCmd { benignEnv benignArgs with initError := some "init failed" }).exitCode := by
  have h := (runCheck_exit_partition
    { benignEnv benignArgs with initError := some "init failed" }).2.2.2.2.2.1
  exact ⟨by decide, h (by decide) rfl rfl⟩

/-- C5: ExecuteQuery returns a streamer exactly when the client Execute
call succeeds; when Execute fails, ExecuteQuery returns a nil streamer
together with exactly that error and streams nothing. -/
theorem ExecuteQuery_streamer_iff {α ρ : Type} (client : DbClient α ρ)
    (queryString : String) (args : List α) :
    ((ExecuteQuery client queryString args).streamer.isSome = true ↔
      ∃ r, client.Execute queryString args = .ok r)
    ∧ (∀ e, client.Execute queryString args = .error e →
        (ExecuteQuery client queryString args).streamer = none
        ∧ (ExecuteQuery client queryString args).error = some e
        ∧ (ExecuteQuery client queryString args).streamedResults = []) := by
  cases h : client.Execute queryString args with
  | error e =>
    refine ⟨by simp [ExecuteQuery, h], fun e' he => ?_⟩
    injection he with hee
    subst hee
    simp [ExecuteQuery, h]
  | ok r =>
    refine ⟨by simp [ExecuteQuery, h], fun e' he => ?_⟩
    simp at he

/-- Witness for ExecuteQuery_streamer_iff: a failing client and a
successful client. -/
theorem ExecuteQuery_streamer_iff_witness :
    (ExecuteQuery failingClient "select 1" []).streamer = none
    ∧ (ExecuteQuery failingClient "select 1" []).error = some "relation does not exist"
    ∧ (ExecuteQuery failingClient "select 1" []).streamedResults = []
    ∧ (ExecuteQuery okClient "select 1" []).streamer.isSome = true := by
  have h1 := (ExecuteQuery_streamer_iff failingClient "select 1" []).2
    "relation does not exist" rfl
  have h2 := (ExecuteQuery_streamer_iff okClient "select 1" []).1.mpr ⟨7, rfl⟩
  exact ⟨h1.1, h1.2.1, h1.2.2, h2⟩

/-- Counterexample for C6 as stated: the source type accepts the grouping
type reason (and indeed any string), which is not among the seven kinds
the claim lists. -/
theorem displayGroupType_not_seven_counterexample :
    isCheckDisplayGroupType "reason" = true
    ∧ claimedGroupingTypes.contains "reason" = false
    ∧ isCheckDisplayGroupType "arbitrary_other_value" = true
    ∧ claimedGroupingTypes.contains "arbitrary_other_value" = false := by
  decide

/-- C6 amended: the TypeScript type CheckDisplayGroupType is the union of
nine string literals with the unrestricted type string, so every string is
a valid grouping-spec type; the seven kinds the spec lists are among the
literals, but so are reason and resource, which the spec does not list. -/
theorem displayGroupType_accepts_every_string (s : String) :
    isCheckDisplayGroupType s = true
    ∧ claimedGroupingTypes.all (fun t => checkDisplayGroupTypeLiterals.contains t) = true
    ∧ "reason" ∈ checkDisplayGroupTypeLiterals
    ∧ "resource" ∈ checkDisplayGroupTypeLiterals
    ∧ "reason" ∉ claimedGroupingTypes
    ∧ "resource" ∉ claimedGroupingTypes := by
  exact ⟨by simp [isCheckDisplayGroupType], by decide, by decide, by decide,
    by decide, by decide⟩

/-- A successful find? returns the first element satisfying the
predicate: the list splits at that element and everything before it fails
the predicate. -/
theorem find?_eq_some_first {α : Type} (p : α → Bool) :
    ∀ (l : List α) (a : α), l.find? p = some a →
      p a = true ∧ ∃ l₁ l₂, l = l₁ ++ a :: l₂ ∧ ∀ e ∈ l₁, p e = false := by
  intro l
  induction l with
  | nil => intro a h; simp at h
  | cons x t ih =>
    intro a h
    cases hp : p x with
    | true =>
      have hxa : some x = some a := by rwa [List.find?, hp] at h
      injection hxa with hxa
      subst hxa
      exact ⟨hp, [], t, rfl, by simp⟩
    | false =>
      have h' : t.find? p = some a := by rwa [List.find?, hp] at h
      obtain ⟨hpa, l₁, l₂, heq, hall⟩ := ih a h'
      refine ⟨hpa, x :: l₁, l₂, by rw [heq]; rfl, fun e he => ?_⟩
      rcases List.mem_cons.mp he with rfl | hmem
      · exact hp
      · exact hall e hmem

/-- C10: findDimension returns undefined when the dimensions list is
absent or the key is absent or empty; otherwise it returns the first
dimension in list order whose key equals the given key, and undefined when
none matches. -/
theorem findDimension_spec (ds : List CheckResultDimension) (k : String)
    (hk : k ≠ "") :
    (∀ key, findDimension none key = none)
    ∧ (∀ dims, findDimension dims none = none)
    ∧ (∀ dims, findDimension dims (some "") = none)
    ∧ (findDimension (some ds) (some k) = none ↔ ∀ d ∈ ds, d.key ≠ k)
    ∧ (∀ d, findDimension (some ds) (some k) = some d →
        d.key = k ∧ ∃ l₁ l₂, ds = l₁ ++ d :: l₂ ∧ ∀ e ∈ l₁, e.key ≠ k) := by
  refine ⟨fun key => ?_, fun dims => ?_, fun dims => ?_, ?_, fun d hd => ?_⟩
  · cases key <;> rfl
  · cases dims <;> rfl
  · cases dims with
    | none => rfl
    | some ds' => simp [findDimension]
  · simp [findDimension, hk, List.find?_eq_none]
  · have h' : ds.find? (fun d => d.key == k) = some d := by
      simpa [findDimension, hk] using hd
    obtain ⟨hp, l₁, l₂, heq, hall⟩ := find?_eq_some_first _ ds d h'
    refine ⟨by simpa using hp, l₁, l₂, heq, fun e he => ?_⟩
    simpa using hall e he

/-- Witness for findDimension_spec at the key region. -/
theorem findDimension_spec_witness :
    ("region" : String) ≠ ""
    ∧ findDimension (some witnessDims) none = none
    ∧ (findDimension (some witnessDims) (some "region") = none ↔
        ∀ d ∈ witnessDims, d.key ≠ "region") := by
  have h := findDimension_spec witnessDims "region" (by decide)
  exact ⟨by decide, h.2.1 (some witnessDims), h.2.2.2.1⟩

/-- The inner loop of NewLeafData assigns, for each cell index, the cell
value under the corresponding column name; with pairwise-distinct column
names every assigned binding survives to the final map, and keys named by
none of the processed columns keep their prior value. -/
theorem buildRowAux_spec {α : Type} (cols : List ColumnDef)
    (hnd : (cols.map ColumnDef.Name).Nodup) :
    ∀ (ds : List α) (i : Nat) (m : RowMap α), i + ds.length ≤ cols.length →
      ∃ m', buildRowAux cols m i ds = some m'
        ∧ (∀ j c d, ds[j]? = some d → cols[i + j]? = some c → m' c.Name = some d)
        ∧ (∀ k, (∀ j c, j < ds.length → cols[i + j]? = some c → c.Name ≠ k) →
            m' k = m k) := by
  intro ds
  induction ds with
  | nil =>
    intro i m _
    refine ⟨m, rfl, fun j c d hj _ => ?_, fun k _ => rfl⟩
    simp at hj
  | cons d rest ih =>
    intro i m hlen
    have hi : i < cols.length := by
      simp only [List.length_cons] at hlen; omega
    have hc0 : cols[i]? = some cols[i] := List.getElem?_eq_getElem hi
    have hred : buildRowAux cols m i (d :: rest) =
        buildRowAux cols (mapAssign m (cols[i]).Name d) (i + 1) rest := by
      simp [buildRowAux, hc0]
    have hlen' : (i + 1) + rest.length ≤ cols.length := by
      simp only [List.length_cons] at hlen; omega
    obtain ⟨m', hsome, hget, hpres⟩ := ih (i + 1) (mapAssign m (cols[i]).Name d) hlen'
    refine ⟨m', by rw [hred, hsome], ?_, ?_⟩
    · intro j c dd hj hcol
      cases j with
      | zero =>
        have hdd : dd = d := by simpa using hj.symm
        subst hdd
        have hcc : c = cols[i] := by
          rw [Nat.add_zero] at hcol
          rw [hc0] at hcol
          injection hcol with h'
          exact h'.symm
        subst hcc
        have hfresh : ∀ j2 c2, j2 < rest.length → cols[(i + 1) + j2]? = some c2 →
            c2.Name ≠ (cols[i]).Name := by
          intro j2 c2 _ hcol2 hne
          have h1 : (cols.map ColumnDef.Name)[i]? = some ((cols[i]).Name) := by
            rw [List.getElem?_map, hc0]; rfl
          have h2 : (cols.map ColumnDef.Name)[(i + 1) + j2]? = some c2.Name := by
            rw [List.getElem?_map, hcol2]; rfl
          have hlen2 : i < (cols.map ColumnDef.Name).length := by simpa using hi
          have hEq : (cols.map ColumnDef.Name)[i]? =
              (cols.map ColumnDef.Name)[(i + 1) + j2]? := by
            rw [h1, h2, hne]
          have heq := List.getElem?_inj hlen2 hnd hEq
          omega
        rw [hpres (cols[i]).Name hfresh]
        simp [mapAssign]
      | succ j' =>
        have hj' : rest[j']? = some dd := by simpa using hj
        have hcol' : cols[(i + 1) + j']? = some c := by
          rw [show (i + 1) + j' = i + (j' + 1) from by omega]
          exact hcol
        exact hget j' c dd hj' hcol'
    · intro k hk
      have hk' : ∀ j c, j < rest.length → cols[(i + 1) + j]? = some c → c.Name ≠ k := by
        intro j c hj hcol
        refine hk (j + 1) c (by simp only [List.length_cons]; omega) ?_
        rw [show i + (j + 1) = (i + 1) + j from by omega]
        exact hcol
      have h0 : (cols[i]).Name ≠ k := by
        refine hk 0 cols[i] (by simp) ?_
        rw [Nat.add_zero]
        exact hc0
      rw [hpres k hk']
      have hne : k ≠ (cols[i]).Name := fun h => h0 h.symm
      simp [mapAssign, hne]

/-- The outer loop of NewLeafData converts every row, preserving count and
order, and with distinct column names each produced row map sends the
column name at an index to the cell at that index. -/
theorem buildRows_spec {α : Type} (cols : List ColumnDef)
    (hnd : (cols.map ColumnDef.Name).Nodup) :
    ∀ rows : List (RowResult α), (∀ r ∈ rows, r.Data.length ≤ cols.length) →
      ∃ rs, buildRows cols rows = some rs ∧ rs.length = rows.length
        ∧ ∀ (idx : Nat) (row : RowResult α), rows[idx]? = some row →
            ∃ rm, rs[idx]? = some rm
              ∧ ∀ (i : Nat) (c : ColumnDef) (d : α),
                  row.Data[i]? = some d → cols[i]? = some c →
                  rm c.Name = some d := by
  intro rows
  induction rows with
  | nil =>
    intro _
    refine ⟨[], rfl, rfl, fun idx row h => ?_⟩
    simp at h
  | cons row rest ih =>
    intro hlen
    have h1 : row.Data.length ≤ cols.length := hlen row (by simp)
    obtain ⟨rm, hrm, hget, _⟩ :=
      buildRowAux_spec cols hnd row.Data 0 (emptyRow α) (by omega)
    obtain ⟨rs, hrs, hlen2, hrows⟩ := ih (fun r hr => hlen r (by simp [hr]))
    refine ⟨rm :: rs, ?_, by simp [hlen2], ?_⟩
    · simp [buildRows, hrm, hrs]
    · intro idx r hidx
      cases idx with
      | zero =>
        have hr : r = row := by simpa using hidx.symm
        subst hr
        refine ⟨rm, by simp, fun i c d hd hc => ?_⟩
        refine hget i c d hd ?_
        rw [Nat.zero_add]
        exact hc
      | succ idx' =>
        have hidx' : rest[idx']? = some r := by simpa using hidx
        obtain ⟨rm', hrm', hprop⟩ := hrows idx' r hidx'
        exact ⟨rm', by simpa using hrm', hprop⟩

/-- C4 amended: for every sync query result whose column names are
pairwise distinct and whose rows have no more cells than there are
columns, NewLeafData produces a LeafData whose Columns are exactly the
source columns, whose Rows have the same length and order as the source
rows, and where each produced row maps the name of the i-th column to the
i-th cell of the corresponding source row. -/
theorem NewLeafData_preserves {α : Type} (result : SyncQueryResult α)
    (hnd : (result.Cols.map ColumnDef.Name).Nodup)
    (hlen : ∀ r ∈ result.Rows, r.Data.length ≤ result.Cols.length) :
    ∃ ld, NewLeafData result = some ld
      ∧ ld.Columns = result.Cols
      ∧ ld.Rows.length = result.Rows.length
      ∧ ∀ (idx : Nat) (row : RowResult α), result.Rows[idx]? = some row →
          ∃ rm, ld.Rows[idx]? = some rm
            ∧ ∀ (i : Nat) (c : ColumnDef) (d : α),
                row.Data[i]? = some d → result.Cols[i]? = some c →
                rm c.Name = some d := by
  obtain ⟨rs, hrs, hlen2, hrows⟩ := buildRows_spec result.Cols hnd result.Rows hlen
  exact ⟨{ Columns := result.Cols, Rows := rs },
    by simp [NewLeafData, hrs], rfl, hlen2, hrows⟩

/-- Witness for NewLeafData_preserves at a two-column two-row result. -/
theorem NewLeafData_preserves_witness :
    (twoColResult.Cols.map ColumnDef.Name).Nodup
    ∧ (∀ r ∈ twoColResult.Rows, r.Data.length ≤ twoColResult.Cols.length)
    ∧ (NewLeafData twoColResult).isSome = true := by
  obtain ⟨ld, hld, -⟩ := NewLeafData_preserves twoColResult (by decide) (by decide)
  exact ⟨by decide, by decide, by rw [hld]; rfl⟩

/-- Counterexample for C4 as stated: with two identically named columns,
the produced row holds the second cell under the shared name, so it does
not map the first column's name to the first cell — the first cell's value
is dropped. -/
theorem NewLeafData_dup_column_counterexample :
    (dupColResult.Cols[0]?.map ColumnDef.Name) = some "a"
    ∧ (dupColResult.Rows[0]?.bind (fun r => r.Data[0]?)) = some 1
    ∧ ((NewLeafData dupColResult).bind (fun ld => ld.Rows[0]?)).map (fun rm => rm "a")
        = some (some 2)
    ∧ some (some (2 : Nat)) ≠ some (some 1) := by
  refine ⟨rfl, rfl, rfl, by decide⟩

end Powerpipe
